import Mathlib

/-!
Shallow embedding of virtinst/connection.py (class VirtinstConnection),
the caching and capability-negotiation facade over a libvirt connection.

State of the facade is the structure `Conn`; the remote endpoint and the
external collaborators (libvirt handle, support matrix, URI parser) are
the structure `Remote`.  Every operation that may talk to the remote
endpoint returns, besides its result and the updated facade state, a log
of the remote calls it performed (`List RCall`), so that statements of
the form "this call performs no remote round trip" are expressible.
Exceptions of the Python code are modelled with `Except String`.
-/

namespace Virtinst

/-- Parsed URI fields consumed by the predicates of connection.py
(the `URI` collaborator from uri.py; only the fields this module reads). -/
structure URIObj where
  scheme : String
  hostname : String
  path : String
deriving DecidableEq, Repr

/-- A wrapped Guest object: `Guest(conn, parsexml=xml)` keeps the XML text. -/
structure Guest where
  xml : String
deriving DecidableEq, Repr

/-- A wrapped StoragePool object: built from the XML description; the name
field is the one the XML parser extracts (used by volume enumeration). -/
structure StoragePool where
  name : String
  xml : String
deriving DecidableEq, Repr

/-- A wrapped StorageVolume object. -/
structure StorageVolume where
  xml : String
deriving DecidableEq, Repr

/-- A wrapped NodeDevice object. -/
structure NodeDevice where
  xml : String
deriving DecidableEq, Repr

/-- A raw libvirt domain handle as listed by pollhelpers.fetch_vms; its
XMLDesc(0) remote call may fail. -/
structure VirDomain where
  xmlDesc : Except String String

/-- A raw libvirt pool handle as listed by pollhelpers.fetch_pools. -/
structure VirPool where
  name : String
  xmlDesc : Except String String

/-- A raw libvirt volume handle as listed by pollhelpers.fetch_volumes. -/
structure VirVol where
  xmlDesc : Except String String

/-- A raw libvirt node device handle as listed by pollhelpers.fetch_nodedevs. -/
structure VirNodeDev where
  xmlDesc : Except String String

/-- Remote behaviour of one storage pool, keyed by pool name:
storagePoolLookupByName plus info (is the pool running), and the
volume listing of the pool. -/
structure PoolRemote where
  lookupRunning : Except String Bool
  fetchVols : Except String (List VirVol)

/-- The remote endpoint and external collaborators: responses of the
libvirt handle, the support matrix evaluator, and the URI parser. -/
structure Remote where
  fetchVms : Except String (List VirDomain)
  fetchPools : Except String (List VirPool)
  fetchNodedevs : Except String (List VirNodeDev)
  poolByName : String → PoolRemote
  getLibVersion : Except String Nat
  getVersion : Except String Nat
  closeRet : Int
  openResult : Except String Unit
  negotiatedURI : String
  parseURI : String → URIObj
  supportEval : Nat → Option Nat → Bool
  localLibvirtVersion : Nat

/-- One remote call event, recorded in the call log. -/
inductive RCall where
  | fetchVms
  | fetchPools
  | fetchNodedevs
  | xmlDesc
  | poolLookup (name : String)
  | fetchVolumes (name : String)
  | getLibVersion
  | getVersion
  | closeCall
  | openCall
  | getURICall
  | supportEval (key : Nat)
deriving DecidableEq, Repr

/-- The facade state: the fields of VirtinstConnection.  The four entries
of the _fetch_cache dict are the four Option fields; the override
callbacks are modelled by the constant list they would return. -/
structure Conn where
  magic : Bool
  open_uri : String
  uri : Option String
  uriobj : URIObj
  fake_conn_predictable : Bool
  fake_conn_remote : Bool
  fake_conn_session : Bool
  fake_libvirt_version : Option Nat
  fake_conn_version : Option Nat
  daemon_ver : Option Nat
  conn_ver : Option Nat
  libvirtconn : Bool
  fetch_domains : Option (List Guest)
  fetch_pools : Option (List StoragePool)
  fetch_vols : Option (List StorageVolume)
  fetch_nodedevs : Option (List NodeDevice)
  support_cache : List (Nat × Bool)
  cb_fetch_all_domains : Option (List Guest)
  cb_fetch_all_pools : Option (List StoragePool)
  cb_fetch_all_vols : Option (List StorageVolume)
  cb_fetch_all_nodedevs : Option (List NodeDevice)
  cb_cache_new_pool : Bool
deriving DecidableEq, Repr

/-- Resolver output for a magic (synthetic test) URI: the fields of the
MagicURI collaborator read by VirtinstConnection.__init__. -/
structure MagicData where
  open_uri : String
  fake_uri : String
  predictable : Bool
  remote : Bool
  session : Bool
  conn_version : Option Nat
  libvirt_version : Option Nat

/-- VirtinstConnection.__init__ : the non-magic branch uses the input
address verbatim; the magic branch takes the decomposition supplied by
the MagicURI resolver.  `parse` is the URI parser collaborator. -/
def mkConn (parse : String → URIObj) (magic : Option MagicData) (uri0 : String) : Conn :=
  match magic with
  | some md =>
    { magic := true
      open_uri := md.open_uri
      uri := some md.fake_uri
      uriobj := parse md.fake_uri
      fake_conn_predictable := md.predictable
      fake_conn_remote := md.remote
      fake_conn_session := md.session
      fake_libvirt_version := md.libvirt_version
      fake_conn_version := md.conn_version
      daemon_ver := none
      conn_ver := none
      libvirtconn := false
      fetch_domains := none
      fetch_pools := none
      fetch_vols := none
      fetch_nodedevs := none
      support_cache := []
      cb_fetch_all_domains := none
      cb_fetch_all_pools := none
      cb_fetch_all_vols := none
      cb_fetch_all_nodedevs := none
      cb_cache_new_pool := false }
  | none =>
    { magic := false
      open_uri := uri0
      uri := some uri0
      uriobj := parse uri0
      fake_conn_predictable := false
      fake_conn_remote := false
      fake_conn_session := false
      fake_libvirt_version := none
      fake_conn_version := none
      daemon_ver := none
      conn_ver := none
      libvirtconn := false
      fetch_domains := none
      fetch_pools := none
      fetch_vols := none
      fetch_nodedevs := none
      support_cache := []
      cb_fetch_all_domains := none
      cb_fetch_all_pools := none
      cb_fetch_all_vols := none
      cb_fetch_all_nodedevs := none
      cb_cache_new_pool := false }

/-- The uri property: `self._uri or self._open_uri` (Python truthiness:
None and the empty string fall through to the open uri). -/
def uriProp (c : Conn) : String :=
  match c.uri with
  | some u => if u = "" then c.open_uri else u
  | none => c.open_uri

/-- getURI override: returns the raw _uri field. -/
def getURI (c : Conn) : Option String :=
  c.uri

/-- is_closed: the live handle is absent. -/
def is_closed (c : Conn) : Bool :=
  !c.libvirtconn

/-- is_open: the live handle is present. -/
def is_open (c : Conn) : Bool :=
  c.libvirtconn

/-- is_remote: the fake remote flag, or a truthy hostname in the parsed uri. -/
def is_remote (c : Conn) : Bool :=
  c.fake_conn_remote || c.uriobj.hostname ≠ ""

/-- is_session_uri: the fake session flag, or the uri path is /session. -/
def is_session_uri (c : Conn) : Bool :=
  c.fake_conn_session || c.uriobj.path = "/session"

/-- close: call close on the live handle when present (returning its
status code), drop the handle, clear _uri and the whole fetch cache. -/
def close (c : Conn) (r : Remote) : Int × Conn × List RCall :=
  let ret : Int := if c.libvirtconn then r.closeRet else 0
  let log : List RCall := if c.libvirtconn then [RCall.closeCall] else []
  (ret,
   { c with libvirtconn := false, uri := none,
            fetch_domains := none, fetch_pools := none,
            fetch_vols := none, fetch_nodedevs := none },
   log)

/-- open: libvirt.openAuth (its failure propagates); on success install
the handle, and when the open uri was empty query the negotiated uri
from the handle and re-derive the parsed uri object. -/
def openConn (c : Conn) (r : Remote) : Except String Unit × Conn × List RCall :=
  match r.openResult with
  | .error e => (.error e, c, [RCall.openCall])
  | .ok _ =>
    let c2 : Conn := { c with libvirtconn := true }
    if c2.open_uri = "" then
      (.ok (),
       { c2 with uri := some r.negotiatedURI,
                 uriobj := r.parseURI r.negotiatedURI },
       [RCall.openCall, RCall.getURICall])
    else
      (.ok (), c2, [RCall.openCall])

/-- local_libvirt_version: forced value short-circuit, else the
process-wide cached local library version (a local, not remote, call). -/
def local_libvirt_version (c : Conn) (r : Remote) : Nat :=
  match c.fake_libvirt_version with
  | some v => v
  | none => r.localLibvirtVersion

/-- daemon_version: forced value short-circuit; a non-remote connection
reports the local library version; otherwise fetch once and memoize,
storing the sentinel 0 when the fetch fails (the failure is logged in
the Python code and never raised). -/
def daemon_version (c : Conn) (r : Remote) : Nat × Conn × List RCall :=
  match c.fake_libvirt_version with
  | some v => (v, c, [])
  | none =>
    if is_remote c = false then
      (local_libvirt_version c r, c, [])
    else
      match c.daemon_ver with
      | some v => (v, c, [])
      | none =>
        match r.getLibVersion with
        | .ok v => (v, { c with daemon_ver := some v }, [RCall.getLibVersion])
        | .error _ => (0, { c with daemon_ver := some 0 }, [RCall.getLibVersion])

/-- The list comprehension of _fetch_all_domains_raw: wrap each listed
domain from the XML returned by its XMLDesc(0) call; the first failing
XMLDesc aborts the whole comprehension. -/
def buildDomains : List VirDomain → Except String (List Guest) × List RCall
  | [] => (.ok [], [])
  | d :: ds =>
    match d.xmlDesc with
    | .error e => (.error e, [RCall.xmlDesc])
    | .ok x =>
      match buildDomains ds with
      | (.error e, log) => (.error e, RCall.xmlDesc :: log)
      | (.ok gs, log) => (.ok (Guest.mk x :: gs), RCall.xmlDesc :: log)

/-- _fetch_all_domains_raw: list the domains, then wrap each one. -/
def fetch_all_domains_raw (r : Remote) : Except String (List Guest) × List RCall :=
  match r.fetchVms with
  | .error e => (.error e, [RCall.fetchVms])
  | .ok objs =>
    match buildDomains objs with
    | (res, log) => (res, RCall.fetchVms :: log)

/-- fetch_all_domains: delegate to the override callback when one is
registered; otherwise serve from the cache, performing the full raw
fetch on a miss and storing the result. -/
def fetch_all_domains (c : Conn) (r : Remote) :
    Except String (List Guest) × Conn × List RCall :=
  match c.cb_fetch_all_domains with
  | some lst => (.ok lst, c, [])
  | none =>
    match c.fetch_domains with
    | some cached => (.ok cached, c, [])
    | none =>
      match fetch_all_domains_raw r with
      | (.ok lst, log) => (.ok lst, { c with fetch_domains := some lst }, log)
      | (.error e, log) => (.error e, c, log)

/-- _build_pool_raw: wrap one raw pool handle from its XMLDesc(0) call. -/
def build_pool_raw (p : VirPool) : Except String StoragePool × List RCall :=
  match p.xmlDesc with
  | .error e => (.error e, [RCall.xmlDesc])
  | .ok x => (.ok (StoragePool.mk p.name x), [RCall.xmlDesc])

/-- The list comprehension of _fetch_all_pools_raw: wrap each listed
pool; the first failing XMLDesc aborts the whole comprehension. -/
def buildPools : List VirPool → Except String (List StoragePool) × List RCall
  | [] => (.ok [], [])
  | p :: ps =>
    match build_pool_raw p with
    | (.error e, log) => (.error e, log)
    | (.ok sp, log) =>
      match buildPools ps with
      | (.error e, log2) => (.error e, log ++ log2)
      | (.ok sps, log2) => (.ok (sp :: sps), log ++ log2)

/-- _fetch_all_pools_raw: list the pools, then wrap each one. -/
def fetch_all_pools_raw (r : Remote) : Except String (List StoragePool) × List RCall :=
  match r.fetchPools with
  | .error e => (.error e, [RCall.fetchPools])
  | .ok objs =>
    match buildPools objs with
    | (res, log) => (res, RCall.fetchPools :: log)

/-- fetch_all_pools: callback override, else cached fetch with raw miss. -/
def fetch_all_pools (c : Conn) (r : Remote) :
    Except String (List StoragePool) × Conn × List RCall :=
  match c.cb_fetch_all_pools with
  | some lst => (.ok lst, c, [])
  | none =>
    match c.fetch_pools with
    | some cached => (.ok cached, c, [])
    | none =>
      match fetch_all_pools_raw r with
      | (.ok lst, log) => (.ok lst, { c with fetch_pools := some lst }, log)
      | (.error e, log) => (.error e, c, log)

/-- The volume loop of _fetch_vols_raw: wrap each listed volume, but a
failing XMLDesc is caught and logged and that single volume is skipped. -/
def buildVols : List VirVol → List StorageVolume × List RCall
  | [] => ([], [])
  | v :: vs =>
    match buildVols vs with
    | (rest, log) =>
      match v.xmlDesc with
      | .error _ => (rest, RCall.xmlDesc :: log)
      | .ok x => (StorageVolume.mk x :: rest, RCall.xmlDesc :: log)

/-- _fetch_vols_raw: look the pool up by name; a pool that is not in the
running state contributes no volumes; otherwise list its volumes and
wrap them, skipping the ones whose description fetch fails. -/
def fetch_vols_raw (r : Remote) (p : StoragePool) :
    Except String (List StorageVolume) × List RCall :=
  match (r.poolByName p.name).lookupRunning with
  | .error e => (.error e, [RCall.poolLookup p.name])
  | .ok false => (.ok [], [RCall.poolLookup p.name])
  | .ok true =>
    match (r.poolByName p.name).fetchVols with
    | .error e => (.error e, [RCall.poolLookup p.name, RCall.fetchVolumes p.name])
    | .ok vs =>
      match buildVols vs with
      | (lst, log) =>
        (.ok lst, RCall.poolLookup p.name :: RCall.fetchVolumes p.name :: log)

/-- The pool loop of _fetch_all_vols_raw: extend the accumulator with
the volumes of each pool in order; a raw failure aborts the loop. -/
def fetchVolsLoop (r : Remote) : List StoragePool → Except String (List StorageVolume) × List RCall
  | [] => (.ok [], [])
  | p :: ps =>
    match fetch_vols_raw r p with
    | (.error e, log) => (.error e, log)
    | (.ok vs, log) =>
      match fetchVolsLoop r ps with
      | (.error e, log2) => (.error e, log ++ log2)
      | (.ok rest, log2) => (.ok (vs ++ rest), log ++ log2)

/-- _fetch_all_vols_raw: iterate over fetch_all_pools (the public,
possibly cached or overridden entry point) and collect the volumes of
every pool. -/
def fetch_all_vols_raw (c : Conn) (r : Remote) :
    Except String (List StorageVolume) × Conn × List RCall :=
  match fetch_all_pools c r with
  | (.error e, c2, log) => (.error e, c2, log)
  | (.ok pools, c2, log) =>
    match fetchVolsLoop r pools with
    | (.error e, log2) => (.error e, c2, log ++ log2)
    | (.ok vols, log2) => (.ok vols, c2, log ++ log2)

/-- fetch_all_vols: callback override, else cached fetch with raw miss. -/
def fetch_all_vols (c : Conn) (r : Remote) :
    Except String (List StorageVolume) × Conn × List RCall :=
  match c.cb_fetch_all_vols with
  | some lst => (.ok lst, c, [])
  | none =>
    match c.fetch_vols with
    | some cached => (.ok cached, c, [])
    | none =>
      match fetch_all_vols_raw c r with
      | (.ok lst, c2, log) => (.ok lst, { c2 with fetch_vols := some lst }, log)
      | (.error e, c2, log) => (.error e, c2, log)

/-- The list comprehension of _fetch_all_nodedevs_raw. -/
def buildNodedevs : List VirNodeDev → Except String (List NodeDevice) × List RCall
  | [] => (.ok [], [])
  | d :: ds =>
    match d.xmlDesc with
    | .error e => (.error e, [RCall.xmlDesc])
    | .ok x =>
      match buildNodedevs ds with
      | (.error e, log) => (.error e, RCall.xmlDesc :: log)
      | (.ok ns, log) => (.ok (NodeDevice.mk x :: ns), RCall.xmlDesc :: log)

/-- _fetch_all_nodedevs_raw: list the node devices, then wrap each one. -/
def fetch_all_nodedevs_raw (r : Remote) : Except String (List NodeDevice) × List RCall :=
  match r.fetchNodedevs with
  | .error e => (.error e, [RCall.fetchNodedevs])
  | .ok objs =>
    match buildNodedevs objs with
    | (res, log) => (res, RCall.fetchNodedevs :: log)

/-- fetch_all_nodedevs: callback override, else cached fetch with raw miss. -/
def fetch_all_nodedevs (c : Conn) (r : Remote) :
    Except String (List NodeDevice) × Conn × List RCall :=
  match c.cb_fetch_all_nodedevs with
  | some lst => (.ok lst, c, [])
  | none =>
    match c.fetch_nodedevs with
    | some cached => (.ok cached, c, [])
    | none =>
      match fetch_all_nodedevs_raw r with
      | (.ok lst, log) => (.ok lst, { c with fetch_nodedevs := some lst }, log)
      | (.error e, log) => (.error e, c, log)

/-- _cache_new_pool_raw: a no-op when the pool cache was never primed;
otherwise wrap the new pool and append it to the cached pool list, and
when the volume cache is also primed append the volumes of that pool. -/
def cache_new_pool_raw (c : Conn) (r : Remote) (pobj : VirPool) :
    Except String Unit × Conn × List RCall :=
  match c.fetch_pools with
  | none => (.ok (), c, [])
  | some poollist =>
    match build_pool_raw pobj with
    | (.error e, log) => (.error e, c, log)
    | (.ok poolxmlobj, log) =>
      let c2 : Conn := { c with fetch_pools := some (poollist ++ [poolxmlobj]) }
      match c2.fetch_vols with
      | none => (.ok (), c2, log)
      | some vollist =>
        match fetch_vols_raw r poolxmlobj with
        | (.error e, log2) => (.error e, c2, log ++ log2)
        | (.ok vs, log2) =>
          (.ok (), { c2 with fetch_vols := some (vollist ++ vs) }, log ++ log2)

/-- cache_new_pool: delegate to the override callback when registered
(the callback owns its own cache; our state is untouched), else insert
into our cache. -/
def cache_new_pool (c : Conn) (r : Remote) (pobj : VirPool) :
    Except String Unit × Conn × List RCall :=
  if c.cb_cache_new_pool then
    (.ok (), c, [])
  else
    cache_new_pool_raw c r pobj

/-- The inner _check_support closure: serve the feature key from the
support cache, evaluating through the support matrix and storing the
result on a miss. -/
def check_support_one (c : Conn) (r : Remote) (key : Nat) (data : Option Nat) :
    Bool × Conn × List RCall :=
  match c.support_cache.lookup key with
  | some b => (b, c, [])
  | none =>
    let b := r.supportEval key data
    (b, { c with support_cache := (key, b) :: c.support_cache }, [RCall.supportEval key])

/-- check_support: the and-condition over the listified feature keys,
returning False at the first feature that checks false. -/
def check_support (c : Conn) (r : Remote) (features : List Nat) (data : Option Nat) :
    Bool × Conn × List RCall :=
  match features with
  | [] => (true, c, [])
  | f :: fs =>
    match check_support_one c r f data with
    | (b, c2, log) =>
      if b then
        match check_support c2 r fs data with
        | (b2, c3, log2) => (b2, c3, log ++ log2)
      else
        (false, c2, log)

/-- The value a feature key effectively has at a given state: the cached
result when present, else the support matrix evaluation. -/
def effVal (c : Conn) (r : Remote) (data : Option Nat) (f : Nat) : Bool :=
  match c.support_cache.lookup f with
  | some b => b
  | none => r.supportEval f data

/-- The volumes that survive the per-volume try/except of the Python
loop: exactly the ones whose XMLDesc call succeeds, in order. -/
def volsOk (vs : List VirVol) : List StorageVolume :=
  vs.filterMap (fun v =>
    match v.xmlDesc with
    | .ok x => some (StorageVolume.mk x)
    | .error _ => none)

/-- The list of volumes one pool contributes (empty on a raw failure). -/
def volsOf (r : Remote) (p : StoragePool) : List StorageVolume :=
  match (fetch_vols_raw r p).1 with
  | .ok l => l
  | .error _ => []

/-!
Heap model for the copy semantics of the cached fetch pattern.

Python lists are mutable references; the shared pattern

  if key not in self._fetch_cache:
      self._fetch_cache[key] = self._raw_fetch()
  return self._fetch_cache[key][:]

stores one list object in the cache and returns a fresh copy of it on
every call.  `Store` is an explicit heap of list cells, the cache entry
is a reference into it, and `fetchCachedRef` is the pattern above, one
fresh cell allocated for the returned copy.
-/

/-- An explicit heap of list cells, addressed by allocation index. -/
structure Store (α : Type) where
  cells : List (List α)
deriving DecidableEq, Repr

/-- Allocate a new cell holding `v`, returning its reference. -/
def Store.alloc {α : Type} (s : Store α) (v : List α) : Nat × Store α :=
  (s.cells.length, ⟨s.cells ++ [v]⟩)

/-- Read a cell (a dangling reference reads the empty list). -/
def Store.read {α : Type} (s : Store α) (ref : Nat) : List α :=
  (s.cells[ref]?).getD []

/-- Overwrite a cell in place: the model of caller-side list mutation. -/
def Store.write {α : Type} (s : Store α) (ref : Nat) (v : List α) : Store α :=
  ⟨s.cells.set ref v⟩

/-- The cached fetch pattern shared by the four fetch_all methods, with
explicit references: on a miss the raw result is stored in a fresh cell
recorded in the cache; the returned value is always a fresh copy cell of
the cached cell, never the cached cell itself. -/
def fetchCachedRef {α : Type} (cache : Option Nat) (raw : List α) (s : Store α) :
    Nat × Option Nat × Store α :=
  match cache with
  | some k =>
    match s.alloc (s.read k) with
    | (ret, s2) => (ret, some k, s2)
  | none =>
    match s.alloc raw with
    | (k, s1) =>
      match s1.alloc (s1.read k) with
      | (ret, s2) => (ret, some k, s2)

/-- Example URI parser collaborator used by concrete instances. -/
def exParse : String → URIObj := fun _ =>
  { scheme := "qemu", hostname := "", path := "/system" }

/-- Example remote endpoint used by concrete instances. -/
def exRemote : Remote :=
  { fetchVms := .ok [⟨.ok "d1"⟩, ⟨.ok "d2"⟩]
    fetchPools := .ok [⟨"p1", .ok "p1xml"⟩]
    fetchNodedevs := .ok [⟨.ok "n1"⟩]
    poolByName := fun _ => ⟨.ok true, .ok [⟨.ok "v1"⟩, ⟨.ok "v2"⟩]⟩
    getLibVersion := .ok 5000000
    getVersion := .ok 4000
    closeRet := 0
    openResult := .ok ()
    negotiatedURI := "qemu:///system"
    parseURI := exParse
    supportEval := fun k _ => k == 1
    localLibvirtVersion := 7000000 }

/-- Example connection built by the constructor from a plain address. -/
def exConn : Conn := mkConn exParse none "qemu:///system"

/-! ### Call-log helper lemmas -/

theorem buildDomains_count (ds : List VirDomain) :
    ((buildDomains ds).2).count RCall.fetchVms = 0 := by
  induction ds with
  | nil => simp [buildDomains]
  | cons d ds ih =>
    cases hd : d.xmlDesc with
    | error e => simp [buildDomains, hd, List.count_cons]
    | ok s =>
      cases hb : buildDomains ds with
      | mk res log =>
        rw [hb] at ih
        cases res <;> simp [buildDomains, hd, hb, List.count_cons, ih]

theorem buildNodedevs_count (ds : List VirNodeDev) :
    ((buildNodedevs ds).2).count RCall.fetchNodedevs = 0 := by
  induction ds with
  | nil => simp [buildNodedevs]
  | cons d ds ih =>
    cases hd : d.xmlDesc with
    | error e => simp [buildNodedevs, hd, List.count_cons]
    | ok s =>
      cases hb : buildNodedevs ds with
      | mk res log =>
        rw [hb] at ih
        cases res <;> simp [buildNodedevs, hd, hb, List.count_cons, ih]

theorem buildPools_count (ps : List VirPool) :
    ((buildPools ps).2).count RCall.fetchPools = 0 := by
  induction ps with
  | nil => simp [buildPools]
  | cons p ps ih =>
    cases hd : p.xmlDesc with
    | error e => simp [buildPools, build_pool_raw, hd, List.count_cons]
    | ok s =>
      cases hb : buildPools ps with
      | mk res log =>
        rw [hb] at ih
        cases res <;>
          simp [buildPools, build_pool_raw, hd, hb, List.count_cons, ih]

theorem fetch_all_domains_raw_count (r : Remote) :
    ((fetch_all_domains_raw r).2).count RCall.fetchVms ≤ 1 := by
  cases hv : r.fetchVms with
  | error e => simp [fetch_all_domains_raw, hv]
  | ok objs =>
    cases hb : buildDomains objs with
    | mk res log =>
      have := buildDomains_count objs
      rw [hb] at this
      simp [fetch_all_domains_raw, hv, hb, List.count_cons, this]

theorem fetch_all_pools_raw_count (r : Remote) :
    ((fetch_all_pools_raw r).2).count RCall.fetchPools ≤ 1 := by
  cases hv : r.fetchPools with
  | error e => simp [fetch_all_pools_raw, hv]
  | ok objs =>
    cases hb : buildPools objs with
    | mk res log =>
      have := buildPools_count objs
      rw [hb] at this
      simp [fetch_all_pools_raw, hv, hb, List.count_cons, this]

theorem fetch_all_nodedevs_raw_count (r : Remote) :
    ((fetch_all_nodedevs_raw r).2).count RCall.fetchNodedevs ≤ 1 := by
  cases hv : r.fetchNodedevs with
  | error e => simp [fetch_all_nodedevs_raw, hv]
  | ok objs =>
    cases hb : buildNodedevs objs with
    | mk res log =>
      have := buildNodedevs_count objs
      rw [hb] at this
      simp [fetch_all_nodedevs_raw, hv, hb, List.count_cons, this]

/-- The state left by fetch_all_pools only (possibly) updates the pool
cache entry: every other field survives. -/
theorem fetch_all_pools_state (c : Conn) (r : Remote) :
    ∃ o : Option (List StoragePool),
      (fetch_all_pools c r).2.1 = { c with fetch_pools := o } := by
  obtain ⟨m, ou, u, uo, p1, p2, p3, f1, f2, dv, cv, lc, fd, fp, fv, fn, sc,
    cb1, cb2, cb3, cb4, cb5⟩ := c
  cases cb2 with
  | some lst => exact ⟨fp, by simp [fetch_all_pools]⟩
  | none =>
    cases fp with
    | some cached => exact ⟨some cached, by simp [fetch_all_pools]⟩
    | none =>
      cases hraw : fetch_all_pools_raw r with
      | mk res log =>
        cases res with
        | ok lst => exact ⟨some lst, by simp [fetch_all_pools, hraw]⟩
        | error e => exact ⟨none, by simp [fetch_all_pools, hraw]⟩

/-- C1: for every enumeration category with no override callback, a
fetch_all call that returns a value leaves a state from which a second
fetch_all call (against any remote) performs no remote call at all,
returns the same value, and leaves the state unchanged; moreover the
first call issued at most one enumeration round trip of its category. -/
theorem fetch_all_memoized (c : Conn) (r : Remote) :
    (c.cb_fetch_all_domains = none →
      ∀ l c1 log1, fetch_all_domains c r = (.ok l, c1, log1) →
        (∀ r2, fetch_all_domains c1 r2 = (.ok l, c1, [])) ∧
        log1.count RCall.fetchVms ≤ 1) ∧
    (c.cb_fetch_all_pools = none →
      ∀ l c1 log1, fetch_all_pools c r = (.ok l, c1, log1) →
        (∀ r2, fetch_all_pools c1 r2 = (.ok l, c1, [])) ∧
        log1.count RCall.fetchPools ≤ 1) ∧
    (c.cb_fetch_all_vols = none →
      ∀ l c1 log1, fetch_all_vols c r = (.ok l, c1, log1) →
        ∀ r2, fetch_all_vols c1 r2 = (.ok l, c1, [])) ∧
    (c.cb_fetch_all_nodedevs = none →
      ∀ l c1 log1, fetch_all_nodedevs c r = (.ok l, c1, log1) →
        (∀ r2, fetch_all_nodedevs c1 r2 = (.ok l, c1, [])) ∧
        log1.count RCall.fetchNodedevs ≤ 1) := by
  refine ⟨?_, ?_, ?_, ?_⟩
  · intro hcb l c1 log1 h
    cases hc : c.fetch_domains with
    | some cached =>
      simp only [fetch_all_domains, hcb, hc] at h
      simp only [Prod.mk.injEq, Except.ok.injEq] at h
      obtain ⟨rfl, rfl, rfl⟩ := h
      exact ⟨fun r2 => by simp [fetch_all_domains, hcb, hc], by simp⟩
    | none =>
      cases hraw : fetch_all_domains_raw r with
      | mk res rlog =>
        cases res with
        | error e => simp [fetch_all_domains, hcb, hc, hraw] at h
        | ok lst =>
          simp only [fetch_all_domains, hcb, hc, hraw] at h
          simp only [Prod.mk.injEq, Except.ok.injEq] at h
          obtain ⟨rfl, rfl, rfl⟩ := h
          refine ⟨fun r2 => by simp [fetch_all_domains, hcb], ?_⟩
          have := fetch_all_domains_raw_count r
          rw [hraw] at this
          exact this
  · intro hcb l c1 log1 h
    cases hc : c.fetch_pools with
    | some cached =>
      simp only [fetch_all_pools, hcb, hc] at h
      simp only [Prod.mk.injEq, Except.ok.injEq] at h
      obtain ⟨rfl, rfl, rfl⟩ := h
      exact ⟨fun r2 => by simp [fetch_all_pools, hcb, hc], by simp⟩
    | none =>
      cases hraw : fetch_all_pools_raw r with
      | mk res rlog =>
        cases res with
        | error e => simp [fetch_all_pools, hcb, hc, hraw] at h
        | ok lst =>
          simp only [fetch_all_pools, hcb, hc, hraw] at h
          simp only [Prod.mk.injEq, Except.ok.injEq] at h
          obtain ⟨rfl, rfl, rfl⟩ := h
          refine ⟨fun r2 => by simp [fetch_all_pools, hcb], ?_⟩
          have := fetch_all_pools_raw_count r
          rw [hraw] at this
          exact this
  · intro hcb l c1 log1 h
    cases hc : c.fetch_vols with
    | some cached =>
      simp only [fetch_all_vols, hcb, hc] at h
      simp only [Prod.mk.injEq, Except.ok.injEq] at h
      obtain ⟨rfl, rfl, rfl⟩ := h
      exact fun r2 => by simp [fetch_all_vols, hcb, hc]
    | none =>
      cases hraw : fetch_all_vols_raw c r with
      | mk res rest =>
        cases rest with
        | mk c2 rlog =>
          cases res with
          | error e => simp [fetch_all_vols, hcb, hc, hraw] at h
          | ok lst =>
            simp only [fetch_all_vols, hcb, hc, hraw] at h
            simp only [Prod.mk.injEq, Except.ok.injEq] at h
            obtain ⟨rfl, rfl, rfl⟩ := h
            intro r2
            obtain ⟨o, ho⟩ := fetch_all_pools_state c r
            have hc2 : c2 = { c with fetch_pools := o } := by
              have : (fetch_all_vols_raw c r).2.1 = c2 := by rw [hraw]
              rw [← this, ← ho]
              simp only [fetch_all_vols_raw]
              cases hp : fetch_all_pools c r with
              | mk pres prest =>
                cases prest with
                | mk pc plog =>
                  cases pres with
                  | error e => simp
                  | ok pl =>
                    cases hl : fetchVolsLoop r2 pl with
                    | mk lres llog =>
                      simp only []
                      cases hl2 : fetchVolsLoop r pl with
                      | mk lres2 llog2 => cases lres2 <;> simp
            subst hc2
            simp [fetch_all_vols, hcb]
  · intro hcb l c1 log1 h
    cases hc : c.fetch_nodedevs with
    | some cached =>
      simp only [fetch_all_nodedevs, hcb, hc] at h
      simp only [Prod.mk.injEq, Except.ok.injEq] at h
      obtain ⟨rfl, rfl, rfl⟩ := h
      exact ⟨fun r2 => by simp [fetch_all_nodedevs, hcb, hc], by simp⟩
    | none =>
      cases hraw : fetch_all_nodedevs_raw r with
      | mk res rlog =>
        cases res with
        | error e => simp [fetch_all_nodedevs, hcb, hc, hraw] at h
        | ok lst =>
          simp only [fetch_all_nodedevs, hcb, hc, hraw] at h
          simp only [Prod.mk.injEq, Except.ok.injEq] at h
          obtain ⟨rfl, rfl, rfl⟩ := h
          refine ⟨fun r2 => by simp [fetch_all_nodedevs, hcb], ?_⟩
          have := fetch_all_nodedevs_raw_count r
          rw [hraw] at this
          exact this

/-- Witness for C1: concrete cached second call for the domain category. -/
theorem fetch_all_memoized_witness :
    fetch_all_domains { exConn with fetch_domains := some [⟨"d1"⟩, ⟨"d2"⟩] } exRemote =
      (.ok [⟨"d1"⟩, ⟨"d2"⟩],
       { exConn with fetch_domains := some [⟨"d1"⟩, ⟨"d2"⟩] }, []) ∧
    ([RCall.fetchVms, RCall.xmlDesc, RCall.xmlDesc].count RCall.fetchVms) ≤ 1 := by
  have h := (fetch_all_memoized exConn exRemote).1 rfl
    [⟨"d1"⟩, ⟨"d2"⟩] { exConn with fetch_domains := some [⟨"d1"⟩, ⟨"d2"⟩] }
    [RCall.fetchVms, RCall.xmlDesc, RCall.xmlDesc] rfl
  exact ⟨h.1 exRemote, h.2⟩

/-! ### Support cache lemmas -/

/-- One _check_support step returns the effective value of its key and
does not change the effective value of any key. -/
theorem check_support_one_effVal (c : Conn) (r : Remote) (k : Nat) (d : Option Nat) :
    (check_support_one c r k d).1 = effVal c r d k ∧
    ∀ f, effVal (check_support_one c r k d).2.1 r d f = effVal c r d f := by
  cases hl : c.support_cache.lookup k with
  | some b => simp [check_support_one, effVal, hl]
  | none =>
    refine ⟨by simp [check_support_one, effVal, hl], fun f => ?_⟩
    simp only [check_support_one, hl, effVal]
    by_cases hf : f = k
    · subst hf
      simp [List.lookup, hl]
    · have hbk : (f == k) = false := by simp [hf]
      simp [List.lookup, hbk]

/-- check_support computes the conjunction of the effective values. -/
theorem check_support_all (c : Conn) (r : Remote) (d : Option Nat) (fs : List Nat) :
    (check_support c r fs d).1 = fs.all (effVal c r d) := by
  induction fs generalizing c with
  | nil => simp [check_support]
  | cons f fs ih =>
    cases hco : check_support_one c r f d with
    | mk b rest =>
      cases rest with
      | mk c2 log =>
        have h1 : b = effVal c r d f := by
          have h := (check_support_one_effVal c r f d).1
          rw [hco] at h
          exact h
        have h2 : ∀ g, effVal c2 r d g = effVal c r d g := by
          intro g
          have h := (check_support_one_effVal c r f d).2 g
          rw [hco] at h
          exact h
        have hfun : effVal c2 r d = effVal c r d := funext h2
        cases b with
        | false => simp [check_support, hco, List.all_cons, ← h1]
        | true =>
          cases hcs : check_support c2 r fs d with
          | mk b2 rest2 =>
            cases rest2 with
            | mk c3 log2 =>
              have hih := ih c2
              rw [hcs] at hih
              simp only at hih
              simp [check_support, hco, hcs, List.all_cons, ← h1, hih, hfun]

/-- C2: check_support is the logical AND of the per-feature effective
values; it short-circuits at the first feature evaluating false, leaving
every later feature unevaluated and uncached; a fresh key is evaluated
once through the support matrix and memoized; and a cached key is served
from the cache against any remote state and any data argument, with no
evaluation at all. -/
theorem check_support_spec (c : Conn) (r : Remote) (d : Option Nat) :
    (∀ fs, (check_support c r fs d).1 = fs.all (effVal c r d)) ∧
    (∀ a fs, c.support_cache.lookup a = none → r.supportEval a d = false →
      check_support c r (a :: fs) d =
        (false, { c with support_cache := (a, false) :: c.support_cache },
         [RCall.supportEval a])) ∧
    (∀ a, c.support_cache.lookup a = none →
      check_support c r [a] d =
        (r.supportEval a d,
         { c with support_cache := (a, r.supportEval a d) :: c.support_cache },
         [RCall.supportEval a])) ∧
    (∀ a v, c.support_cache.lookup a = some v →
      ∀ r2 d2, check_support c r2 [a] d2 = (v, c, [])) := by
  refine ⟨fun fs => check_support_all c r d fs, ?_, ?_, ?_⟩
  · intro a fs hl hev
    simp [check_support, check_support_one, hl, hev]
  · intro a hl
    cases hev : r.supportEval a d <;>
      simp [check_support, check_support_one, hl, hev]
  · intro a v hl r2 d2
    cases v <;> simp [check_support, check_support_one, hl]

/-- A remote state with a changed support matrix and a failing version
fetch, used to exercise memoization against remote change. -/
def exRemote2 : Remote :=
  { exRemote with
    supportEval := fun _ _ => false
    getLibVersion := .error "connection dropped" }

/-- Witness for C2: a false first feature short-circuits concretely, and
a cached key is served unchanged under a different remote and data. -/
theorem check_support_spec_witness :
    check_support exConn exRemote [0, 5] none =
      (false, { exConn with support_cache := [(0, false)] },
       [RCall.supportEval 0]) ∧
    check_support { exConn with support_cache := [(0, true)] } exRemote2 [0] (some 7) =
      (true, { exConn with support_cache := [(0, true)] }, []) := by
  constructor
  · exact (check_support_spec exConn exRemote none).2.1 0 [5] rfl rfl
  · exact (check_support_spec { exConn with support_cache := [(0, true)] }
      exRemote none).2.2.2 0 true rfl exRemote2 (some 7)

/-- C3: daemon_version returns the forced version when one exists; on a
non-remote connection it returns local_libvirt_version with no remote
call; on a remote connection it serves a memoized value with no remote
call, fetches and memoizes on a miss, and on fetch failure memoizes and
returns the sentinel 0 instead of raising (the function is total). -/
theorem daemon_version_spec (c : Conn) (r : Remote) :
    (∀ v, c.fake_libvirt_version = some v → daemon_version c r = (v, c, [])) ∧
    (c.fake_libvirt_version = none → is_remote c = false →
      daemon_version c r = (local_libvirt_version c r, c, [])) ∧
    (∀ v, c.fake_libvirt_version = none → is_remote c = true → c.daemon_ver = some v →
      daemon_version c r = (v, c, [])) ∧
    (∀ v, c.fake_libvirt_version = none → is_remote c = true → c.daemon_ver = none →
      r.getLibVersion = .ok v →
      daemon_version c r = (v, { c with daemon_ver := some v }, [RCall.getLibVersion])) ∧
    (∀ e, c.fake_libvirt_version = none → is_remote c = true → c.daemon_ver = none →
      r.getLibVersion = .error e →
      daemon_version c r = (0, { c with daemon_ver := some 0 }, [RCall.getLibVersion])) := by
  refine ⟨?_, ?_, ?_, ?_, ?_⟩
  · intro v hf
    simp [daemon_version, hf]
  · intro hf hr
    simp [daemon_version, hf, hr]
  · intro v hf hr hd
    simp [daemon_version, hf, hr, hd]
  · intro v hf hr hd hg
    simp [daemon_version, hf, hr, hd, hg]
  · intro e hf hr hd hg
    simp [daemon_version, hf, hr, hd, hg]

/-- A connection whose resolver marked it remote. -/
def exConnRemote : Conn := { exConn with fake_conn_remote := true }

/-- Witness for C3: the non-remote case equals the local version with no
remote call; the remote case fetches and memoizes; the failing remote
case memoizes the sentinel 0. -/
theorem daemon_version_spec_witness :
    daemon_version exConn exRemote = (7000000, exConn, []) ∧
    daemon_version exConnRemote exRemote =
      (5000000, { exConnRemote with daemon_ver := some 5000000 },
       [RCall.getLibVersion]) ∧
    daemon_version exConnRemote exRemote2 =
      (0, { exConnRemote with daemon_ver := some 0 }, [RCall.getLibVersion]) := by
  refine ⟨?_, ?_, ?_⟩
  · exact (daemon_version_spec exConn exRemote).2.1 rfl rfl
  · exact (daemon_version_spec exConnRemote exRemote).2.2.2.1 5000000 rfl rfl rfl rfl
  · exact (daemon_version_spec exConnRemote exRemote2).2.2.2.2
      "connection dropped" rfl rfl rfl rfl

/-- C4: cache_new_pool with no override callback is a silent no-op with
no remote calls while the pool cache was never primed; once the pool
cache is primed it appends exactly the one wrapped pool, and it extends
the volume cache with exactly the volumes of that pool precisely when
the volume cache was also primed. -/
theorem cache_new_pool_spec (c : Conn) (r : Remote) (pobj : VirPool) :
    c.cb_cache_new_pool = false →
    ((c.fetch_pools = none → cache_new_pool c r pobj = (.ok (), c, [])) ∧
     (∀ pl x, c.fetch_pools = some pl → c.fetch_vols = none → pobj.xmlDesc = .ok x →
       cache_new_pool c r pobj =
         (.ok (),
          { c with fetch_pools := some (pl ++ [StoragePool.mk pobj.name x]) },
          [RCall.xmlDesc])) ∧
     (∀ pl vl x vs vlog, c.fetch_pools = some pl → c.fetch_vols = some vl →
       pobj.xmlDesc = .ok x →
       fetch_vols_raw r (StoragePool.mk pobj.name x) = (.ok vs, vlog) →
       cache_new_pool c r pobj =
         (.ok (),
          { c with fetch_pools := some (pl ++ [StoragePool.mk pobj.name x]),
                   fetch_vols := some (vl ++ vs) },
          RCall.xmlDesc :: vlog))) := by
  intro hcb
  refine ⟨?_, ?_, ?_⟩
  · intro hp
    simp [cache_new_pool, cache_new_pool_raw, hcb, hp]
  · intro pl x hp hv hx
    simp [cache_new_pool, cache_new_pool_raw, build_pool_raw, hcb, hp, hv, hx]
  · intro pl vl x vs vlog hp hv hx hraw
    simp [cache_new_pool, cache_new_pool_raw, build_pool_raw, hcb, hp, hv, hx, hraw]

/-- A connection with both the pool and volume categories primed. -/
def exConnBoth : Conn :=
  { exConn with fetch_pools := some [⟨"p0", "x0"⟩], fetch_vols := some [⟨"ov"⟩] }

/-- Witness for C4: unprimed no-op, and primed insertion extending both
caches at a concrete pool. -/
theorem cache_new_pool_spec_witness :
    cache_new_pool exConn exRemote ⟨"p9", .ok "x9"⟩ = (.ok (), exConn, []) ∧
    cache_new_pool exConnBoth exRemote ⟨"p9", .ok "x9"⟩ =
      (.ok (),
       { exConnBoth with fetch_pools := some [⟨"p0", "x0"⟩, ⟨"p9", "x9"⟩],
                         fetch_vols := some [⟨"ov"⟩, ⟨"v1"⟩, ⟨"v2"⟩] },
       [RCall.xmlDesc, RCall.poolLookup "p9", RCall.fetchVolumes "p9",
        RCall.xmlDesc, RCall.xmlDesc]) := by
  constructor
  · exact (cache_new_pool_spec exConn exRemote ⟨"p9", .ok "x9"⟩ rfl).1 rfl
  · exact (cache_new_pool_spec exConnBoth exRemote ⟨"p9", .ok "x9"⟩ rfl).2.2
      [⟨"p0", "x0"⟩] [⟨"ov"⟩] "x9" [⟨"v1"⟩, ⟨"v2"⟩]
      [RCall.poolLookup "p9", RCall.fetchVolumes "p9", RCall.xmlDesc, RCall.xmlDesc]
      rfl rfl rfl rfl

/-- The volume loop keeps exactly the volumes whose description fetch
succeeded, in order. -/
theorem buildVols_fst (vs : List VirVol) : (buildVols vs).1 = volsOk vs := by
  induction vs with
  | nil => simp [buildVols, volsOk]
  | cons v vs ih =>
    cases hb : buildVols vs with
    | mk rest log =>
      rw [hb] at ih
      cases hv : v.xmlDesc <;>
        simp [buildVols, volsOk, hb, hv, ih, List.filterMap_cons]

/-- C5: volume enumeration contributes nothing for a pool that is not
running; for a running pool it returns exactly the volumes whose
description fetch succeeded (a single failing volume is skipped, the
rest survive, and no error is raised); and the pool loop visits every
pool of the list, concatenating the per-pool results in order. -/
theorem vols_enumeration_spec (r : Remote) :
    (∀ p : StoragePool, (r.poolByName p.name).lookupRunning = .ok false →
      fetch_vols_raw r p = (.ok [], [RCall.poolLookup p.name])) ∧
    (∀ (p : StoragePool) vs, (r.poolByName p.name).lookupRunning = .ok true →
      (r.poolByName p.name).fetchVols = .ok vs →
      (fetch_vols_raw r p).1 = .ok (volsOk vs)) ∧
    (∀ pools : List StoragePool,
      (∀ p ∈ pools, ∃ l, (fetch_vols_raw r p).1 = .ok l) →
      (fetchVolsLoop r pools).1 =
        .ok (pools.foldr (fun p acc => volsOf r p ++ acc) [])) := by
  refine ⟨?_, ?_, ?_⟩
  · intro p hrun
    simp [fetch_vols_raw, hrun]
  · intro p vs hrun hvs
    cases hb : buildVols vs with
    | mk lst log =>
      have := buildVols_fst vs
      rw [hb] at this
      simp only at this
      simp [fetch_vols_raw, hrun, hvs, hb, this]
  · intro pools h
    induction pools with
    | nil => simp [fetchVolsLoop]
    | cons p ps ih =>
      obtain ⟨l, hl⟩ := h p (by simp)
      cases hp : fetch_vols_raw r p with
      | mk res log =>
        rw [hp] at hl
        have hres : res = .ok l := hl
        subst hres
        have hih := ih (fun q hq => h q (List.mem_cons_of_mem _ hq))
        cases hloop : fetchVolsLoop r ps with
        | mk res2 log2 =>
          rw [hloop] at hih
          have hres2 : res2 = .ok (ps.foldr (fun q acc => volsOf r q ++ acc) []) := hih
          subst hres2
          simp [fetchVolsLoop, hp, hloop, volsOf, List.foldr_cons]

/-- A remote state with one running pool holding ten volumes of which
one fails its description fetch, and one pool that is not running. -/
def exRemoteVols : Remote :=
  { exRemote with
    poolByName := fun n =>
      if n = "pbad" then
        ⟨.ok true, .ok [⟨.ok "w1"⟩, ⟨.ok "w2"⟩, ⟨.ok "w3"⟩, ⟨.ok "w4"⟩,
                        ⟨.error "io failure"⟩, ⟨.ok "w6"⟩, ⟨.ok "w7"⟩,
                        ⟨.ok "w8"⟩, ⟨.ok "w9"⟩, ⟨.ok "w10"⟩]⟩
      else if n = "poff" then ⟨.ok false, .ok [⟨.ok "z1"⟩]⟩
      else exRemote.poolByName n }

/-- Witness for C5: one of ten volumes fails, nine survive and no error
is raised; a non-running pool contributes nothing; the loop over both
pools returns exactly the nine surviving volumes. -/
theorem vols_enumeration_spec_witness :
    (fetch_vols_raw exRemoteVols ⟨"pbad", "xb"⟩).1 =
      .ok [⟨"w1"⟩, ⟨"w2"⟩, ⟨"w3"⟩, ⟨"w4"⟩, ⟨"w6"⟩,
           ⟨"w7"⟩, ⟨"w8"⟩, ⟨"w9"⟩, ⟨"w10"⟩] ∧
    fetch_vols_raw exRemoteVols ⟨"poff", "xo"⟩ = (.ok [], [RCall.poolLookup "poff"]) ∧
    (fetchVolsLoop exRemoteVols [⟨"pbad", "xb"⟩, ⟨"poff", "xo"⟩]).1 =
      .ok [⟨"w1"⟩, ⟨"w2"⟩, ⟨"w3"⟩, ⟨"w4"⟩, ⟨"w6"⟩,
           ⟨"w7"⟩, ⟨"w8"⟩, ⟨"w9"⟩, ⟨"w10"⟩] := by
  refine ⟨?_, ?_, ?_⟩
  · exact (vols_enumeration_spec exRemoteVols).2.1 ⟨"pbad", "xb"⟩
      [⟨.ok "w1"⟩, ⟨.ok "w2"⟩, ⟨.ok "w3"⟩, ⟨.ok "w4"⟩, ⟨.error "io failure"⟩,
       ⟨.ok "w6"⟩, ⟨.ok "w7"⟩, ⟨.ok "w8"⟩, ⟨.ok "w9"⟩, ⟨.ok "w10"⟩] rfl rfl
  · exact (vols_enumeration_spec exRemoteVols).1 ⟨"poff", "xo"⟩ rfl
  · exact (vols_enumeration_spec exRemoteVols).2.2
      [⟨"pbad", "xb"⟩, ⟨"poff", "xo"⟩]
      (by
        intro p hp
        simp only [List.mem_cons, List.not_mem_nil, or_false] at hp
        rcases hp with rfl | rfl
        · exact ⟨_, rfl⟩
        · exact ⟨_, rfl⟩)

/-- The state left by the raw volume enumeration is exactly the state
left by its inner fetch_all_pools call. -/
theorem fetch_all_vols_raw_state (c : Conn) (r : Remote) :
    (fetch_all_vols_raw c r).2.1 = (fetch_all_pools c r).2.1 := by
  cases hp : fetch_all_pools c r with
  | mk res rest =>
    cases rest with
    | mk c2 log =>
      cases res with
      | error e => simp [fetch_all_vols_raw, hp]
      | ok pl =>
        cases hl : fetchVolsLoop r pl with
        | mk res2 log2 => cases res2 <;> simp [fetch_all_vols_raw, hp, hl]

/-- C6: for every category with no override callback, a fetch_all call
whose remote enumeration fails propagates the error and leaves the
cache entry for that category absent, so a later call performs the full
fetch again instead of returning a partial or stale snapshot. -/
theorem fetch_error_no_cache (c : Conn) (r : Remote) :
    (c.cb_fetch_all_domains = none → ∀ e c1 log1,
      fetch_all_domains c r = (.error e, c1, log1) →
      c1 = c ∧ c1.fetch_domains = none ∧
      (∀ r2 l2 log2, fetch_all_domains_raw r2 = (.ok l2, log2) →
        fetch_all_domains c1 r2 =
          (.ok l2, { c1 with fetch_domains := some l2 }, log2))) ∧
    (c.cb_fetch_all_pools = none → ∀ e c1 log1,
      fetch_all_pools c r = (.error e, c1, log1) →
      c1 = c ∧ c1.fetch_pools = none ∧
      (∀ r2 l2 log2, fetch_all_pools_raw r2 = (.ok l2, log2) →
        fetch_all_pools c1 r2 =
          (.ok l2, { c1 with fetch_pools := some l2 }, log2))) ∧
    (c.cb_fetch_all_vols = none → ∀ e c1 log1,
      fetch_all_vols c r = (.error e, c1, log1) →
      c1.fetch_vols = none ∧ c1.cb_fetch_all_vols = none ∧
      (∀ r2 l2 c2 log2, fetch_all_vols_raw c1 r2 = (.ok l2, c2, log2) →
        fetch_all_vols c1 r2 =
          (.ok l2, { c2 with fetch_vols := some l2 }, log2))) ∧
    (c.cb_fetch_all_nodedevs = none → ∀ e c1 log1,
      fetch_all_nodedevs c r = (.error e, c1, log1) →
      c1 = c ∧ c1.fetch_nodedevs = none ∧
      (∀ r2 l2 log2, fetch_all_nodedevs_raw r2 = (.ok l2, log2) →
        fetch_all_nodedevs c1 r2 =
          (.ok l2, { c1 with fetch_nodedevs := some l2 }, log2))) := by
  refine ⟨?_, ?_, ?_, ?_⟩
  · intro hcb e c1 log1 h
    cases hc : c.fetch_domains with
    | some cached => simp [fetch_all_domains, hcb, hc] at h
    | none =>
      cases hraw : fetch_all_domains_raw r with
      | mk res rlog =>
        cases res with
        | ok lst => simp [fetch_all_domains, hcb, hc, hraw] at h
        | error e2 =>
          simp only [fetch_all_domains, hcb, hc, hraw] at h
          simp only [Prod.mk.injEq, Except.error.injEq] at h
          obtain ⟨he, hc1, hlog⟩ := h
          subst hc1
          refine ⟨rfl, hc, ?_⟩
          intro r2 l2 log2 hraw2
          simp [fetch_all_domains, hcb, hc, hraw2]
  · intro hcb e c1 log1 h
    cases hc : c.fetch_pools with
    | some cached => simp [fetch_all_pools, hcb, hc] at h
    | none =>
      cases hraw : fetch_all_pools_raw r with
      | mk res rlog =>
        cases res with
        | ok lst => simp [fetch_all_pools, hcb, hc, hraw] at h
        | error e2 =>
          simp only [fetch_all_pools, hcb, hc, hraw] at h
          simp only [Prod.mk.injEq, Except.error.injEq] at h
          obtain ⟨he, hc1, hlog⟩ := h
          subst hc1
          refine ⟨rfl, hc, ?_⟩
          intro r2 l2 log2 hraw2
          simp [fetch_all_pools, hcb, hc, hraw2]
  · intro hcb e c1 log1 h
    cases hc : c.fetch_vols with
    | some cached => simp [fetch_all_vols, hcb, hc] at h
    | none =>
      cases hraw : fetch_all_vols_raw c r with
      | mk res rest =>
        cases rest with
        | mk cm rlog =>
          cases res with
          | ok lst => simp [fetch_all_vols, hcb, hc, hraw] at h
          | error e2 =>
            simp only [fetch_all_vols, hcb, hc, hraw] at h
            simp only [Prod.mk.injEq, Except.error.injEq] at h
            obtain ⟨he, hc1, hlog⟩ := h
            subst hc1
            obtain ⟨o, ho⟩ := fetch_all_pools_state c r
            have hst : cm = { c with fetch_pools := o } := by
              have hx := fetch_all_vols_raw_state c r
              rw [hraw, ho] at hx
              exact hx
            subst hst
            refine ⟨by simp [hc], by simp [hcb], ?_⟩
            intro r2 l2 c2 log2 hraw2
            simp only [hc, hcb] at hraw2
            simp [fetch_all_vols, hcb, hc, hraw2]
  · intro hcb e c1 log1 h
    cases hc : c.fetch_nodedevs with
    | some cached => simp [fetch_all_nodedevs, hcb, hc] at h
    | none =>
      cases hraw : fetch_all_nodedevs_raw r with
      | mk res rlog =>
        cases res with
        | ok lst => simp [fetch_all_nodedevs, hcb, hc, hraw] at h
        | error e2 =>
          simp only [fetch_all_nodedevs, hcb, hc, hraw] at h
          simp only [Prod.mk.injEq, Except.error.injEq] at h
          obtain ⟨he, hc1, hlog⟩ := h
          subst hc1
          refine ⟨rfl, hc, ?_⟩
          intro r2 l2 log2 hraw2
          simp [fetch_all_nodedevs, hcb, hc, hraw2]

/-- A remote state whose enumeration listings all fail. -/
def exRemoteFail : Remote :=
  { exRemote with
    fetchVms := .error "down"
    fetchPools := .error "down"
    fetchNodedevs := .error "down" }

/-- Witness for C6: a failing domain listing propagates the error and
leaves the cache absent; a later call against a healthy remote performs
the full fetch. -/
theorem fetch_error_no_cache_witness :
    fetch_all_domains exConn exRemoteFail =
      (.error "down", exConn, [RCall.fetchVms]) ∧
    exConn.fetch_domains = none ∧
    fetch_all_domains exConn exRemote =
      (.ok [⟨"d1"⟩, ⟨"d2"⟩], { exConn with fetch_domains := some [⟨"d1"⟩, ⟨"d2"⟩] },
       [RCall.fetchVms, RCall.xmlDesc, RCall.xmlDesc]) := by
  have h := (fetch_error_no_cache exConn exRemoteFail).1 rfl
    "down" exConn [RCall.fetchVms] rfl
  exact ⟨rfl, h.2.1,
    h.2.2 exRemote [⟨"d1"⟩, ⟨"d2"⟩] [RCall.fetchVms, RCall.xmlDesc, RCall.xmlDesc] rfl⟩

/-- C10: fetch_all_vols builds its result through fetch_all_pools: with
a registered pools override callback the volume list is computed from
the override-supplied pool list; and on a volume cache miss with no
overrides, a successful fetch_all_vols also primes the pool cache, so a
later fetch_all_pools performs no remote call. -/
theorem fetch_all_vols_via_pools (c : Conn) (r : Remote) :
    (∀ plist vl vlog, c.cb_fetch_all_vols = none → c.fetch_vols = none →
      c.cb_fetch_all_pools = some plist →
      fetchVolsLoop r plist = (.ok vl, vlog) →
      fetch_all_vols c r = (.ok vl, { c with fetch_vols := some vl }, vlog)) ∧
    (c.cb_fetch_all_vols = none → c.cb_fetch_all_pools = none →
      c.fetch_pools = none → c.fetch_vols = none →
      ∀ l c1 log1, fetch_all_vols c r = (.ok l, c1, log1) →
      ∃ pl, c1.fetch_pools = some pl ∧
        ∀ r2, fetch_all_pools c1 r2 = (.ok pl, c1, [])) := by
  constructor
  · intro plist vl vlog hcbv hv hcbp hloop
    simp [fetch_all_vols, fetch_all_vols_raw, fetch_all_pools, hcbv, hv, hcbp, hloop]
  · intro hcbv hcbp hp hv l c1 log1 h
    cases hraw : fetch_all_pools_raw r with
    | mk pres plog =>
      cases pres with
      | error e =>
        simp [fetch_all_vols, fetch_all_vols_raw, fetch_all_pools,
          hcbv, hcbp, hp, hv, hraw] at h
      | ok pl =>
        cases hloop : fetchVolsLoop r pl with
        | mk lres llog =>
          cases lres with
          | error e =>
            simp [fetch_all_vols, fetch_all_vols_raw, fetch_all_pools,
              hcbv, hcbp, hp, hv, hraw, hloop] at h
          | ok vl =>
            simp only [fetch_all_vols, fetch_all_vols_raw, fetch_all_pools,
              hcbv, hcbp, hp, hv, hraw, hloop] at h
            simp only [Prod.mk.injEq, Except.ok.injEq] at h
            obtain ⟨hl, hc1, hlog⟩ := h
            refine ⟨pl, ?_, ?_⟩
            · rw [← hc1]
            · intro r2
              rw [← hc1]
              simp [fetch_all_pools, hcbp]

/-- A connection with a registered pools override callback. -/
def exConnOver : Conn := { exConn with cb_fetch_all_pools := some [⟨"p1", "x1"⟩] }

/-- The state after a volume fetch on a fresh connection. -/
def exConnVols : Conn :=
  { exConn with fetch_pools := some [⟨"p1", "p1xml"⟩],
                fetch_vols := some [⟨"v1"⟩, ⟨"v2"⟩] }

/-- Witness for C10: the override-supplied pool list drives the volume
fetch, and a volume fetch primes the pool cache so that a later pool
fetch succeeds with no remote call even against a broken remote. -/
theorem fetch_all_vols_via_pools_witness :
    fetch_all_vols exConnOver exRemote =
      (.ok [⟨"v1"⟩, ⟨"v2"⟩], { exConnOver with fetch_vols := some [⟨"v1"⟩, ⟨"v2"⟩] },
       [RCall.poolLookup "p1", RCall.fetchVolumes "p1",
        RCall.xmlDesc, RCall.xmlDesc]) ∧
    fetch_all_pools exConnVols exRemoteFail =
      (.ok [⟨"p1", "p1xml"⟩], exConnVols, []) := by
  constructor
  · exact (fetch_all_vols_via_pools exConnOver exRemote).1 [⟨"p1", "x1"⟩]
      [⟨"v1"⟩, ⟨"v2"⟩]
      [RCall.poolLookup "p1", RCall.fetchVolumes "p1", RCall.xmlDesc, RCall.xmlDesc]
      rfl rfl rfl rfl
  · obtain ⟨pl, h1, hall⟩ := (fetch_all_vols_via_pools exConn exRemote).2
      rfl rfl rfl rfl [⟨"v1"⟩, ⟨"v2"⟩] exConnVols
      [RCall.fetchPools, RCall.xmlDesc, RCall.poolLookup "p1",
       RCall.fetchVolumes "p1", RCall.xmlDesc, RCall.xmlDesc] rfl
    have hpl : pl = [⟨"p1", "p1xml"⟩] := by
      have h2 : (some pl : Option (List StoragePool)) = some [⟨"p1", "p1xml"⟩] :=
        h1.symm.trans rfl
      exact Option.some.inj h2
    subst hpl
    exact hall exRemoteFail

/-- C7 (amended): close always returns the close status of the live
handle without raising, drops the handle, clears the whole fetch cache
and the stored address, and preserves every resolver-derived flag; on an
already-closed connection it returns 0 with no remote call; and a close
following a close changes nothing at all.  (As literally stated the
claim fails: close on a never-opened connection still clears the stored
address, which is a state change; see the counterexample.) -/
theorem close_spec (c : Conn) (r r2 : Remote) :
    (c.libvirtconn = true → (close c r).1 = r.closeRet) ∧
    (close c r).2.1.libvirtconn = false ∧
    (close c r).2.1.uri = none ∧
    (close c r).2.1.fetch_domains = none ∧
    (close c r).2.1.fetch_pools = none ∧
    (close c r).2.1.fetch_vols = none ∧
    (close c r).2.1.fetch_nodedevs = none ∧
    (close c r).2.1.fake_conn_predictable = c.fake_conn_predictable ∧
    (close c r).2.1.fake_conn_remote = c.fake_conn_remote ∧
    (close c r).2.1.fake_conn_session = c.fake_conn_session ∧
    (close c r).2.1.fake_libvirt_version = c.fake_libvirt_version ∧
    (close c r).2.1.fake_conn_version = c.fake_conn_version ∧
    (is_closed c = true → (close c r).1 = 0 ∧ (close c r).2.2 = []) ∧
    close (close c r).2.1 r2 = (0, (close c r).2.1, []) := by
  refine ⟨?_, by simp [close], by simp [close], by simp [close], by simp [close],
    by simp [close], by simp [close], by simp [close], by simp [close],
    by simp [close], by simp [close], by simp [close], ?_, by simp [close]⟩
  · intro h
    simp [close, h]
  · intro h
    simp only [is_closed, Bool.not_eq_true'] at h
    simp [close, h]

/-- A connection holding a live handle. -/
def exConnOpen : Conn := { exConn with libvirtconn := true }

/-- Witness for C7: closing an open connection returns the status of the
handle; closing an already-closed connection returns 0 with no call. -/
theorem close_spec_witness :
    (close exConnOpen exRemote).1 = exRemote.closeRet ∧
    (close exConn exRemote).1 = 0 ∧ (close exConn exRemote).2.2 = [] := by
  refine ⟨(close_spec exConnOpen exRemote exRemote).1 rfl, ?_, ?_⟩
  · exact ((close_spec exConn exRemote exRemote).2.2.2.2.2.2.2.2.2.2.2.2.1 rfl).1
  · exact ((close_spec exConn exRemote exRemote).2.2.2.2.2.2.2.2.2.2.2.2.1 rfl).2

/-- Counterexample to C7 as stated: a never-opened connection is already
closed, and close on it returns 0 and performs no remote call, yet it
does change the state (the stored address field is cleared). -/
theorem close_idempotent_cex :
    is_closed exConn = true ∧
    (close exConn exRemote).1 = 0 ∧
    (close exConn exRemote).2.2 = [] ∧
    (close exConn exRemote).2.1 ≠ exConn := by
  refine ⟨rfl, rfl, rfl, ?_⟩
  decide

/-- C9 (amended): after close the resolver-derived flags are unchanged
and the uri property reports the open uri (the original input address);
this equals the address reported while open exactly for a connection
whose stored address is its open address.  (As literally stated the
claim fails for a connection constructed from an empty address whose
real address was negotiated at open time; see the counterexample.) -/
theorem uri_after_close_spec (c : Conn) (r : Remote) :
    uriProp (close c r).2.1 = c.open_uri ∧
    (close c r).2.1.fake_conn_predictable = c.fake_conn_predictable ∧
    (close c r).2.1.fake_conn_remote = c.fake_conn_remote ∧
    (close c r).2.1.fake_conn_session = c.fake_conn_session ∧
    (close c r).2.1.fake_libvirt_version = c.fake_libvirt_version ∧
    (close c r).2.1.fake_conn_version = c.fake_conn_version ∧
    (c.uri = some c.open_uri → uriProp (close c r).2.1 = uriProp c) := by
  refine ⟨by simp [close, uriProp], by simp [close], by simp [close],
    by simp [close], by simp [close], by simp [close], ?_⟩
  intro h
  simp [close, uriProp, h]

/-- Witness for C9: for a connection constructed from its final address,
the uri reported after close equals the uri reported before. -/
theorem uri_after_close_spec_witness :
    uriProp (close exConn exRemote).2.1 = uriProp exConn :=
  (uri_after_close_spec exConn exRemote).2.2.2.2.2.2 rfl

/-- Counterexample to C9 as stated: a connection constructed from the
empty address reports the negotiated address while open, but after
close the uri property reports the empty string again. -/
theorem uri_after_close_cex :
    uriProp (openConn (mkConn exParse none "") exRemote).2.1 = "qemu:///system" ∧
    uriProp (close (openConn (mkConn exParse none "") exRemote).2.1 exRemote).2.1 = "" ∧
    uriProp (close (openConn (mkConn exParse none "") exRemote).2.1 exRemote).2.1 ≠
      uriProp (openConn (mkConn exParse none "") exRemote).2.1 := by
  refine ⟨rfl, rfl, ?_⟩
  decide

/-! ### Copy independence of the cached fetch pattern -/

theorem store_read_push {α : Type} (l : List (List α)) (v : List α) :
    (Store.mk (l ++ [v]) : Store α).read l.length = v := by
  simp [Store.read]

theorem store_read_push_lt {α : Type} (l : List (List α)) (v : List α) (k : Nat)
    (h : k < l.length) :
    (Store.mk (l ++ [v]) : Store α).read k = (Store.mk l : Store α).read k := by
  simp [Store.read, List.getElem?_append, h]

theorem store_read_write_ne {α : Type} (s : Store α) (i j : Nat) (v : List α)
    (h : i ≠ j) : (s.write i v).read j = s.read j := by
  simp [Store.write, Store.read, List.getElem?_set_ne h]

/-- C8: the per-category cached fetch pattern stores the raw list in the
cache cell and returns a fresh copy cell on every call, so an arbitrary
caller mutation of the returned cell never changes the contents a
subsequent call returns. -/
theorem fetch_copy_independent {α : Type} (cache : Option Nat) (raw : List α)
    (s : Store α) (m : List α → List α)
    (ret1 ret2 : Nat) (cache1 cache2 : Option Nat) (s1 s2 s3 : Store α) (v1 : List α)
    (hvalid : ∀ k, cache = some k → k < s.cells.length)
    (h1 : fetchCachedRef cache raw s = (ret1, cache1, s1))
    (hv : v1 = s1.read ret1)
    (hs2 : s2 = s1.write ret1 (m v1))
    (h2 : fetchCachedRef cache1 raw s2 = (ret2, cache2, s3)) :
    s3.read ret2 = v1 := by
  cases cache with
  | some k =>
    have hk : k < s.cells.length := hvalid k rfl
    have h1' : fetchCachedRef (some k) raw s =
        (s.cells.length, some k, ⟨s.cells ++ [s.read k]⟩) := by
      simp [fetchCachedRef, Store.alloc]
    rw [h1'] at h1
    simp only [Prod.mk.injEq] at h1
    obtain ⟨hr1, hc1, hs1⟩ := h1
    subst hr1 hc1 hs1
    have hv1 : v1 = s.read k := by
      rw [hv]
      exact store_read_push s.cells (s.read k)
    subst hv1 hs2
    have hkn : s.cells.length ≠ k := (Nat.ne_of_lt hk).symm
    have hread :
        ((Store.mk (s.cells ++ [s.read k]) : Store α).write s.cells.length
          (m (s.read k))).read k = s.read k := by
      rw [store_read_write_ne _ _ _ _ hkn]
      rw [store_read_push_lt s.cells (s.read k) k hk]
    generalize hW :
      (Store.mk (s.cells ++ [s.read k]) : Store α).write s.cells.length
        (m (s.read k)) = W at h2 hread
    have h2c : fetchCachedRef (some k) raw W =
        (W.cells.length, some k, ⟨W.cells ++ [W.read k]⟩) := by
      simp [fetchCachedRef, Store.alloc]
    rw [hread] at h2c
    rw [h2c] at h2
    simp only [Prod.mk.injEq] at h2
    obtain ⟨hr2, hc2, hs3⟩ := h2
    subst hr2 hs3
    exact store_read_push W.cells (s.read k)
  | none =>
    have hra : (Store.mk (s.cells ++ [raw]) : Store α).read s.cells.length = raw :=
      store_read_push s.cells raw
    have h1' : fetchCachedRef none raw s =
        ((s.cells ++ [raw]).length, some s.cells.length,
         ⟨(s.cells ++ [raw]) ++ [raw]⟩) := by
      simp only [fetchCachedRef, Store.alloc]
      rw [hra]
    rw [h1'] at h1
    simp only [Prod.mk.injEq] at h1
    obtain ⟨hr1, hc1, hs1⟩ := h1
    subst hr1 hc1 hs1
    have hv1 : v1 = raw := by
      rw [hv]
      exact store_read_push (s.cells ++ [raw]) raw
    rw [hv1] at hs2
    rw [hv1]
    subst hs2
    have hkn : (s.cells ++ [raw]).length ≠ s.cells.length := by simp
    have hread :
        ((Store.mk ((s.cells ++ [raw]) ++ [raw]) : Store α).write
          (s.cells ++ [raw]).length (m raw)).read s.cells.length = raw := by
      rw [store_read_write_ne _ _ _ _ hkn]
      have hlt : s.cells.length < (s.cells ++ [raw]).length := by simp
      rw [store_read_push_lt (s.cells ++ [raw]) raw s.cells.length hlt]
      exact hra
    generalize hW :
      (Store.mk ((s.cells ++ [raw]) ++ [raw]) : Store α).write
        (s.cells ++ [raw]).length (m raw) = W at h2 hread
    have h2c : fetchCachedRef (some s.cells.length) raw W =
        (W.cells.length, some s.cells.length,
         ⟨W.cells ++ [W.read s.cells.length]⟩) := by
      simp [fetchCachedRef, Store.alloc]
    rw [hread] at h2c
    rw [h2c] at h2
    simp only [Prod.mk.injEq] at h2
    obtain ⟨hr2, hc2, hs3⟩ := h2
    subst hr2 hs3
    exact store_read_push W.cells raw

/-- Witness for C8: a fresh store, one miss fetch, a concrete mutation
of the returned cell, and a second fetch still reading the original
contents. -/
theorem fetch_copy_independent_witness :
    (Store.mk [[1, 2], [9, 1, 2], [1, 2]] : Store Nat).read 2 = [1, 2] :=
  fetch_copy_independent none [1, 2] ⟨[]⟩ (fun l => 9 :: l)
    1 2 (some 0) (some 0) ⟨[[1, 2], [1, 2]]⟩ ⟨[[1, 2], [9, 1, 2]]⟩
    ⟨[[1, 2], [9, 1, 2], [1, 2]]⟩ [1, 2]
    (fun k h => by cases h) rfl rfl rfl rfl

end Virtinst
